import Mathlib

/-!
# Verification of the k6 `compiler` package (goja/Babel compilation pipeline)

Shallow embedding of the `compiler` package: `Compiler.Compile` / `compileImpl`
(parse, source-map handling, Babel transform fallback), the compilation state's
`sourceMapLoader` callback, the source-map repair function `increaseMappingsByOne`,
and the process-wide once-guarded build of the shared Babel bytecode (`newBabel` /
`onceBabelCode`).

External capabilities (the goja parser `parser.ParseFile`, `goja.CompileAST`, the
Babel transform running inside a goja VM, and the injected source-map loading
function) are modelled as explicit function parameters, mirroring the narrow
interfaces through which the package uses them.  The `encoding/json` boundary used
by `increaseMappingsByOne` is modelled by an inductive JSON value type: serialized
bytes either decode to a JSON value or are undecodable.

The recursion of `compileImpl` (CompatibilityMode Extended recursing once into Base)
is unrolled over the two-valued mode: `compileImplBase` is the Base-mode instance of
the body and `compileImpl` dispatches on the mode, calling `compileImplBase` for the
downgraded recursive call.  `CompileOut.transformCalls` and `CompileOut.warnings`
are ghost instrumentation recording the source texts passed to `Transform` and the
number of could-not-load-source-map warnings logged.
-/

set_option autoImplicit false

namespace K6

/-- Decoded JSON values, as produced by `encoding/json` unmarshalling into
`interface` values (objects become string-keyed maps, modelled as
association lists). -/
inductive JVal
  | jnull
  | jbool (b : Bool)
  | jnum (n : Int)
  | jstr (s : String)
  | jarr (elems : List JVal)
  | jobj (fields : List (String × JVal))

/-- Whether a JSON value is a string (Go type assertion `mappings.(string)`). -/
def JVal.isStr : JVal → Bool
  | .jstr _ => true
  | _ => false

/-- Serialized source-map bytes at the `json.Unmarshal` / `json.Marshal` boundary:
either bytes that decode to a given JSON value, or bytes that are not valid JSON. -/
inductive Bytes
  | undecodable (raw : String)
  | jval (v : JVal)

/-- Lookup in a decoded JSON object (Go `m["mappings"]`, comma-ok form). -/
def jlookup (k : String) : List (String × JVal) → Option JVal
  | [] => none
  | (k', v) :: rest => if k' = k then some v else jlookup k rest

/-- Assignment into a decoded JSON object (Go `m["mappings"] = x`). -/
def jupdate (k : String) (v : JVal) : List (String × JVal) → List (String × JVal)
  | [] => [(k, v)]
  | (k', v') :: rest => if k' = k then (k, v) :: rest else (k', v') :: jupdate k v rest

/-- `json.Unmarshal(b, &m)` with `m : map[string]interface` — succeeds exactly when
the bytes decode to a JSON object. -/
def unmarshalBytes : Bytes → Option (List (String × JVal))
  | .undecodable _ => none
  | .jval (.jobj fields) => some fields
  | .jval _ => none

/-- `lib.CompatibilityMode`.  Modelled from the spec: the enum lives in the `lib`
package of this repository, outside the compiled core; the spec describes it as
the two-valued enum Base / Extended. -/
inductive CompatibilityMode
  | base
  | extended
deriving DecidableEq

/-- Result of `goja.CompileAST`: an executable program.  The goja engine is
external; a program is identified here by the AST text it was compiled from and
the strictness flag. -/
structure Program where
  ast : String
  strict : Bool
deriving DecidableEq

/-- Errors a compile call can surface, distinguished by their origin so that
claims about which errors reach the caller can be stated. -/
inductive CompileError
  | syntaxError (filename : String)
  | sourceMapError (msg : String)
  | transformError (msg : String)
  | compileASTError (msg : String)
deriving DecidableEq

/-- Result of `Compiler.Transform` (Babel): rewritten code, optional source map
bytes, optional error — mirroring the Go `(string, []byte, error)` triple. -/
structure TransformOut where
  code : String
  map : Option Bytes
  err : Option String

/-- The injected source-map loading capability `Options.SourceMapLoader`:
`func(string) ([]byte, error)`, returning both the bytes value and the error. -/
abbrev SMLoader := String → Option Bytes × Option String

/-- The external engines the compiler orchestrates, behind the narrow interfaces
the package uses: the goja parser (syntax validity of a text, and which external
source-map path a text references, if any), `goja.CompileAST`, and the Babel
transform `(src, filename, sourceMapsEnabled, inputSrcMap)`. -/
structure EngineCaps where
  parses : String → Bool
  mapRef : String → Option String
  compileAST : String → Bool → Except String Program
  transform : String → String → Bool → Option Bytes → TransformOut

/-- `compiler.Options`: per-Compiler configuration. -/
structure Options where
  compatibilityMode : CompatibilityMode
  sourceMapLoader : Option SMLoader
  strict : Bool

/-- `compilationState`: per-Compile-call mutable state. -/
structure compilationState where
  couldntLoadSourceMap : Bool
  srcMap : Option Bytes
  main : Bool

/-- The internal sentinel source-map reference produced by the transform step. -/
def sourceMapURLFromBabel : String := "k6://internal-should-not-leak/file.map"

/-- `(*compilationState).increaseMappingsByOne`: decode the source map, prepend an
empty line-group to a string `mappings` table (an extra leading semicolon), and
re-serialize; bytes without a `mappings` key are returned unchanged; a `mappings`
value that is not a string sets `couldntLoadSourceMap` and fails. -/
def increaseMappingsByOne (c : compilationState) (sourceMap : Option Bytes) :
    compilationState × Except String Bytes :=
  match sourceMap with
  | none => (c, .error "unexpected end of JSON input")
  | some b =>
    match unmarshalBytes b with
    | none => (c, .error "could not unmarshal sourcemap")
    | some m =>
      match jlookup "mappings" m with
      | none => (c, .ok b)
      | some (.jstr str) =>
        (c, .ok (.jval (.jobj (jupdate "mappings" (.jstr (";" ++ str)) m))))
      | some _ => ({ c with couldntLoadSourceMap := true }, .error "missing mappings in sourcemap")

/-- Lift a `[]byte`-returning result to the loader's `Option Bytes` result type. -/
def liftMapped (p : compilationState × Except String Bytes) :
    compilationState × Except String (Option Bytes) :=
  (p.1, p.2.map some)

/-- `(*compilationState).sourceMapLoader`: the callback handed to the goja parser.
The sentinel path is served from the in-flight state (shifted by one line when the
unit is not the entry module); other paths are delegated to the injected external
loader, whose failure sets `couldntLoadSourceMap`. -/
def sourceMapLoader (load : SMLoader) (c : compilationState) (path : String) :
    compilationState × Except String (Option Bytes) :=
  if path = sourceMapURLFromBabel then
    if !c.main then liftMapped (increaseMappingsByOne c c.srcMap)
    else (c, .ok c.srcMap)
  else
    let res := load path
    let c' := { c with srcMap := res.1 }
    match res.2 with
    | some e => ({ c' with couldntLoadSourceMap := true }, .error e)
    | none =>
      if !c'.main then liftMapped (increaseMappingsByOne c' c'.srcMap)
      else (c', .ok c'.srcMap)

/-- One `parser.ParseFile` call.  `loader = none` models
`parser.WithDisableSourceMaps`; `loader = some load` models
`parser.WithSourceMapLoader(state.sourceMapLoader)`: when the text parses and
references an external map, the callback is invoked and its failure fails the
parse. -/
def parseFile (P : EngineCaps) (filename code : String) (loader : Option SMLoader)
    (st : compilationState) : compilationState × Except CompileError String :=
  if P.parses code then
    match loader with
    | none => (st, .ok code)
    | some load =>
      match P.mapRef code with
      | none => (st, .ok code)
      | some path =>
        match sourceMapLoader load st path with
        | (st', .ok _) => (st', .ok code)
        | (st', .error e) => (st', .error (.sourceMapError e))
  else (st, .error (.syntaxError filename))

/-- The function-shell wrapping applied to non-entry modules
(`"(function(module, exports)" + "..." + src + ...`). -/
def wrapShell (code : String) : String :=
  "(function(module, exports)\x7b\n" ++ code ++ "\n\x7d)\n"

/-- Outcome of the parse phase of `compileImpl` (lines 354–371 of the source):
the wrapped code, the compilation state after parsing, the parse result, and the
number of could-not-load-source-map warnings logged. -/
structure ParseAttemptOut where
  code : String
  state : compilationState
  result : Except CompileError String
  warnings : Nat

/-- The parse phase of `compileImpl`: wrap non-entry modules, parse with the
source-map loader when one is configured, and on a recorded source-map load
failure reset the flag, log a warning, and retry once with maps disabled. -/
def parseAttempt (P : EngineCaps) (opts : Options) (src filename : String) (main : Bool)
    (srcMap : Option Bytes) : ParseAttemptOut :=
  let code := if main then src else wrapShell src
  let st0 : compilationState := ⟨false, srcMap, main⟩
  match parseFile P filename code opts.sourceMapLoader st0 with
  | (st1, r1) =>
    if st1.couldntLoadSourceMap then
      match parseFile P filename code none { st1 with couldntLoadSourceMap := false } with
      | (st2, r2) => ⟨code, st2, r2, 1⟩
    else ⟨code, st1, r1, 0⟩

/-- Result of a compile call: the Go `(*goja.Program, string, error)` triple, plus
ghost instrumentation (sources passed to `Transform`, warnings logged). -/
structure CompileOut where
  pgm : Option Program
  code : String
  err : Option CompileError
  transformCalls : List String
  warnings : Nat
deriving DecidableEq

/-- Final step of `compileImpl`: `goja.CompileAST(ast, c.Options.Strict)`. -/
def compileASTStep (P : EngineCaps) (opts : Options) (ast code : String) (warnings : Nat) :
    CompileOut :=
  match P.compileAST ast opts.strict with
  | .ok pgm => ⟨some pgm, code, none, [], warnings⟩
  | .error e => ⟨none, code, some (.compileASTError e), [], warnings⟩

/-- `compileImpl` at `CompatibilityMode` Base: the body of `compileImpl` with no
transform fallback available — a genuine parse failure is returned to the caller. -/
def compileImplBase (P : EngineCaps) (opts : Options) (src filename : String) (main : Bool)
    (srcMap : Option Bytes) : CompileOut :=
  let a := parseAttempt P opts src filename main srcMap
  match a.result with
  | .ok ast => compileASTStep P opts ast a.code a.warnings
  | .error e => ⟨none, a.code, some e, [], a.warnings⟩

/-- `(*Compiler).compileImpl`: parse (with wrapping and source-map handling); on a
parse failure in Extended mode, call `Transform` on the original unwrapped source
and recompile the transformed output with the mode downgraded to Base (the
recursive call, here `compileImplBase`); in Base mode, return the error. -/
def compileImpl (P : EngineCaps) (opts : Options) (src filename : String) (main : Bool)
    (compatibilityMode : CompatibilityMode) (srcMap : Option Bytes) : CompileOut :=
  let a := parseAttempt P opts src filename main srcMap
  match a.result with
  | .ok ast => compileASTStep P opts ast a.code a.warnings
  | .error e =>
    match compatibilityMode with
    | .extended =>
      let t := P.transform src filename opts.sourceMapLoader.isSome a.state.srcMap
      match t.err with
      | some te => ⟨none, t.code, some (.transformError te), [src], a.warnings⟩
      | none =>
        let r := compileImplBase P opts t.code filename main t.map
        ⟨r.pgm, r.code, r.err, src :: r.transformCalls, a.warnings + r.warnings⟩
    | .base => ⟨none, a.code, some e, [], a.warnings⟩

/-- `(*Compiler).Compile`: run `compileImpl` in the configured mode with no
initial source map. -/
def Compile (P : EngineCaps) (opts : Options) (src filename : String) (main : Bool) :
    CompileOut :=
  compileImpl P opts src filename main opts.compatibilityMode none

/-! ## The process-wide once-guarded Babel bytecode build -/

/-- The `goja.Program` holding the compiled Babel library (abstract token). -/
structure BabelProgram where
  id : Nat
deriving DecidableEq

/-- The package-level globals guarding the shared Babel bytecode:
`onceBabelCode`, `globalBabelCode` / `globalBabelCodeErr`, plus a ghost counter of
how many times the build (`goja.Compile` of the embedded Babel source) actually
ran. -/
structure babelGlobals where
  onceBabelCodeDone : Bool
  babelBuildCount : Nat
  globalBabelCode : Option (Except String BabelProgram)

/-- Process start: the once-guard has not fired and nothing is built. -/
def initialBabelGlobals : babelGlobals := ⟨false, 0, none⟩

/-- One `newBabel` call as far as the shared bytecode is concerned:
`onceBabelCode.Do` runs the build exactly when it has not run before (atomically,
per `sync.Once`), and the call then observes the memoized build result.
`build` is the fixed result of compiling the embedded Babel source. -/
def newBabel (build : Except String BabelProgram) (g : babelGlobals) :
    babelGlobals × Except String BabelProgram :=
  let g' := if g.onceBabelCodeDone then g else ⟨true, g.babelBuildCount + 1, some build⟩
  match g'.globalBabelCode with
  | some r => (g', r)
  | none => (g', .error "babel code not built")

/-- A trace of `n` successive `newBabel` calls from process start, returning the
final globals and the build result observed by each call. -/
def runNewBabels (build : Except String BabelProgram) :
    Nat → babelGlobals × List (Except String BabelProgram)
  | 0 => (initialBabelGlobals, [])
  | n + 1 =>
    let p := runNewBabels build n
    let s := newBabel build p.1
    (s.1, p.2 ++ [s.2])

/-! ## Helper lemmas -/

theorem compileASTStep_transformCalls (P : EngineCaps) (opts : Options) (ast code : String)
    (w : Nat) : (compileASTStep P opts ast code w).transformCalls = [] := by
  unfold compileASTStep
  split <;> rfl

theorem compileASTStep_code (P : EngineCaps) (opts : Options) (ast code : String)
    (w : Nat) : (compileASTStep P opts ast code w).code = code := by
  unfold compileASTStep
  split <;> rfl

theorem compileImplBase_transformCalls (P : EngineCaps) (opts : Options) (src filename : String)
    (main : Bool) (srcMap : Option Bytes) :
    (compileImplBase P opts src filename main srcMap).transformCalls = [] := by
  unfold compileImplBase
  dsimp only
  split
  · exact compileASTStep_transformCalls ..
  · rfl

theorem compileImpl_base_transformCalls (P : EngineCaps) (opts : Options) (src filename : String)
    (main : Bool) (srcMap : Option Bytes) :
    (compileImpl P opts src filename main .base srcMap).transformCalls = [] := by
  unfold compileImpl
  dsimp only
  split
  · exact compileASTStep_transformCalls ..
  · rfl

theorem compileImpl_extended_transformCalls (P : EngineCaps) (opts : Options)
    (src filename : String) (main : Bool) (srcMap : Option Bytes) :
    (compileImpl P opts src filename main .extended srcMap).transformCalls = []
    ∨ (compileImpl P opts src filename main .extended srcMap).transformCalls = [src] := by
  unfold compileImpl
  dsimp only
  split
  · exact Or.inl (compileASTStep_transformCalls ..)
  · split
    · exact Or.inr rfl
    · exact Or.inr (by simp [compileImplBase_transformCalls])

/-- The trace of `n` `newBabel` calls: the once-guard fires on the first call only,
and every call observes the single memoized build result. -/
theorem runNewBabels_eq (build : Except String BabelProgram) (n : Nat) :
    runNewBabels build n =
      (if n = 0 then initialBabelGlobals else ⟨true, 1, some build⟩,
       List.replicate n build) := by
  induction n with
  | zero => rfl
  | succ k ih =>
    unfold runNewBabels
    rw [ih]
    rcases Nat.eq_zero_or_pos k with hk | hk
    · subst hk
      rfl
    · have hkne : k ≠ 0 := Nat.pos_iff_ne_zero.mp hk
      simp only [if_neg hkne, if_neg (Nat.succ_ne_zero k)]
      simp [newBabel, List.replicate_succ']

/-- Splitting a character list at semicolons: the line-group decomposition of a
source map's `mappings` table (groups are separated by `;`, so a list with `n`
separators has `n + 1` groups). -/
def splitOnSemi : List Char → List (List Char)
  | [] => [[]]
  | c :: rest =>
    if c = ';' then [] :: splitOnSemi rest
    else
      match splitOnSemi rest with
      | [] => [[c]]
      | g :: gs => (c :: g) :: gs

/-- The semicolon-separated line-groups of a `mappings` string. -/
def semiGroups (s : String) : List (List Char) := splitOnSemi s.data

theorem semiGroups_semi_prepend (s : String) : semiGroups (";" ++ s) = [] :: semiGroups s := by
  show splitOnSemi ((";" ++ s).data) = [] :: splitOnSemi s.data
  have hdata : (";" ++ s).data = ';' :: s.data := rfl
  rw [hdata]
  simp [splitOnSemi]

theorem jlookup_jupdate_self (k : String) (v : JVal) (m : List (String × JVal)) :
    jlookup k (jupdate k v m) = some v := by
  induction m with
  | nil => simp [jupdate, jlookup]
  | cons kv rest ih =>
    obtain ⟨k', v'⟩ := kv
    by_cases hk : k' = k
    · subst hk
      simp [jupdate, jlookup]
    · simp [jupdate, jlookup, hk, ih]

theorem jlookup_jupdate_ne (k k₂ : String) (v : JVal) (m : List (String × JVal))
    (hk : k₂ ≠ k) : jlookup k₂ (jupdate k v m) = jlookup k₂ m := by
  have hk2 : ¬(k = k₂) := fun h => hk (Eq.symm h)
  induction m with
  | nil => simp [jupdate, jlookup, hk2]
  | cons kv rest ih =>
    obtain ⟨k', v'⟩ := kv
    by_cases hk' : k' = k
    · subst hk'
      simp [jupdate, jlookup, hk2]
    · simp [jupdate, jlookup, hk', ih]

theorem parseAttempt_code (P : EngineCaps) (opts : Options) (src filename : String)
    (main : Bool) (srcMap : Option Bytes) :
    (parseAttempt P opts src filename main srcMap).code =
      (if main then src else wrapShell src) := by
  unfold parseAttempt
  dsimp only
  split <;> split <;> rfl

theorem parseFile_parses_false (P : EngineCaps) (filename code : String)
    (loader : Option SMLoader) (st : compilationState) (h : P.parses code = false) :
    parseFile P filename code loader st = (st, .error (.syntaxError filename)) := by
  unfold parseFile
  simp [h]

theorem parseFile_disabled (P : EngineCaps) (filename code : String) (st : compilationState)
    (h : P.parses code = true) : parseFile P filename code none st = (st, .ok code) := by
  unfold parseFile
  simp [h]

/-- First parse attempt failing with a syntax error: no loader interaction, no
retry, the state is untouched. -/
theorem parseAttempt_syntax_fail (P : EngineCaps) (opts : Options) (src filename : String)
    (main : Bool) (srcMap : Option Bytes)
    (h : P.parses (if main then src else wrapShell src) = false) :
    parseAttempt P opts src filename main srcMap =
      ⟨if main then src else wrapShell src, ⟨false, srcMap, main⟩,
       .error (.syntaxError filename), 0⟩ := by
  unfold parseAttempt
  dsimp only
  rw [parseFile_parses_false P filename _ _ _ h]
  rfl

/-- Parsing an entry module (`main = true`) that is syntactically valid: whatever
the source-map configuration does, either the first parse succeeds with the
load-failure flag clear, or it fails with the flag set. -/
theorem parseFile_main_ok_or_flag (P : EngineCaps) (filename code : String)
    (loader : Option SMLoader) (st : compilationState)
    (h : P.parses code = true) (hm : st.main = true) (hf : st.couldntLoadSourceMap = false) :
    (∃ st', parseFile P filename code loader st = (st', .ok code)
        ∧ st'.couldntLoadSourceMap = false)
    ∨ (∃ st' e, parseFile P filename code loader st = (st', .error e)
        ∧ st'.couldntLoadSourceMap = true) := by
  unfold parseFile
  rw [if_pos h]
  cases loader with
  | none => exact Or.inl ⟨st, rfl, hf⟩
  | some load =>
    dsimp only
    cases P.mapRef code with
    | none => exact Or.inl ⟨st, rfl, hf⟩
    | some path =>
      dsimp only
      unfold sourceMapLoader
      by_cases hs : path = sourceMapURLFromBabel
      · rw [if_pos hs, hm]
        exact Or.inl ⟨st, rfl, hf⟩
      · rw [if_neg hs]
        dsimp only
        cases he : (load path).2 with
        | some e =>
          exact Or.inr ⟨_, _, rfl, rfl⟩
        | none =>
          rw [hm]
          exact Or.inl ⟨_, rfl, hf⟩

/-- Entry-module parse attempt on a syntactically valid source: the attempt ends
in success with the original (unwrapped) text. -/
theorem parseAttempt_main_ok (P : EngineCaps) (opts : Options) (src filename : String)
    (srcMap : Option Bytes) (h : P.parses src = true) :
    (parseAttempt P opts src filename true srcMap).result = .ok src := by
  unfold parseAttempt
  dsimp only
  simp only [reduceIte]
  rcases parseFile_main_ok_or_flag P filename src opts.sourceMapLoader ⟨false, srcMap, true⟩
      h rfl rfl with ⟨st', hok, hflag⟩ | ⟨st', e, herr, hflag⟩
  · rw [hok]
    dsimp only
    rw [hflag]
    rfl
  · rw [herr]
    dsimp only
    rw [hflag]
    rw [parseFile_disabled P filename src _ h]
    rfl

/-- Parse attempt when the text parses and either source maps are disabled or the
text references no external map: immediate success, state untouched. -/
theorem parseAttempt_clean (P : EngineCaps) (opts : Options) (src filename : String)
    (main : Bool) (srcMap : Option Bytes)
    (h : P.parses (if main then src else wrapShell src) = true)
    (hclean : opts.sourceMapLoader = none
      ∨ P.mapRef (if main then src else wrapShell src) = none) :
    parseAttempt P opts src filename main srcMap =
      ⟨if main then src else wrapShell src, ⟨false, srcMap, main⟩,
       .ok (if main then src else wrapShell src), 0⟩ := by
  unfold parseAttempt
  dsimp only
  rcases hclean with hl | hr
  · rw [hl, parseFile_disabled P filename _ _ h]
    rfl
  · unfold parseFile
    rw [if_pos h]
    cases hl : opts.sourceMapLoader with
    | none => rfl
    | some load =>
      dsimp only
      rw [hr]
      rfl

/-- A parse with the loader installed, on a valid text referencing an external
map whose load fails: the parse fails with the load-failure flag set. -/
theorem parseFile_loader_error (P : EngineCaps) (filename code path : String)
    (load : SMLoader) (st : compilationState) (e : String)
    (h : P.parses code = true) (hr : P.mapRef code = some path)
    (hsent : path ≠ sourceMapURLFromBabel) (he : (load path).2 = some e) :
    parseFile P filename code (some load) st =
      (⟨true, (load path).1, st.main⟩, .error (.sourceMapError e)) := by
  unfold parseFile
  rw [if_pos h]
  dsimp only
  rw [hr]
  dsimp only
  unfold sourceMapLoader
  rw [if_neg hsent]
  dsimp only
  rw [he]

/-- Parse attempt when the text parses but references an external map and the
injected loader call fails: the flag triggers one warned retry with maps
disabled, which succeeds. -/
theorem parseAttempt_loader_fail (P : EngineCaps) (opts : Options) (src filename path : String)
    (main : Bool) (srcMap : Option Bytes) (load : SMLoader) (e : String)
    (h : P.parses (if main then src else wrapShell src) = true)
    (hl : opts.sourceMapLoader = some load)
    (hr : P.mapRef (if main then src else wrapShell src) = some path)
    (hsent : path ≠ sourceMapURLFromBabel)
    (he : (load path).2 = some e) :
    parseAttempt P opts src filename main srcMap =
      ⟨if main then src else wrapShell src, ⟨false, (load path).1, main⟩,
       .ok (if main then src else wrapShell src), 1⟩ := by
  unfold parseAttempt
  dsimp only
  rw [hl, parseFile_loader_error P filename _ path load _ e h hr hsent he]
  dsimp only
  rw [parseFile_disabled P filename _ _ h]
  rfl

theorem compileImplBase_code (P : EngineCaps) (opts : Options) (src filename : String)
    (main : Bool) (srcMap : Option Bytes) :
    (compileImplBase P opts src filename main srcMap).code =
      (if main then src else wrapShell src) := by
  unfold compileImplBase
  dsimp only
  split
  · rw [compileASTStep_code, parseAttempt_code]
  · rw [parseAttempt_code]

/-! ## Claims -/

/-- C1: the compatibility mode never increases along the fallback chain of one
top-level Compile call: a Base-mode `compileImpl` never invokes the transform, an
Extended-mode `compileImpl` invokes it at most once and only on the original,
unwrapped source (the recompile after the transform runs in Base mode and adds no
further transform calls), and hence no `Compile` call records more than one
transform pass. -/
theorem C1_transform_at_most_once (P : EngineCaps) (opts : Options) (src filename : String)
    (main : Bool) (srcMap : Option Bytes) :
    (compileImpl P opts src filename main .base srcMap).transformCalls = []
    ∧ ((compileImpl P opts src filename main .extended srcMap).transformCalls = []
       ∨ (compileImpl P opts src filename main .extended srcMap).transformCalls = [src])
    ∧ ((Compile P opts src filename main).transformCalls = []
       ∨ (Compile P opts src filename main).transformCalls = [src]) :=
  ⟨compileImpl_base_transformCalls .., compileImpl_extended_transformCalls ..,
   by
    unfold Compile
    cases opts.compatibilityMode
    · exact Or.inl (compileImpl_base_transformCalls ..)
    · exact compileImpl_extended_transformCalls ..⟩

/-- C2: for a source using a feature valid only in the modern dialect (it does
not parse, wrapped or unwrapped), Extended-mode compilation succeeds — via one
transform pass — and the final source text it reports differs from the original
input, while Base-mode compilation of the same input fails with a syntax error.
The transform capability is assumed to succeed and produce text that parses
(with no external-map interaction left to resolve). -/
theorem C2_modern_syntax_fallback (P : EngineCaps) (opts : Options) (src filename t : String)
    (tm : Option Bytes) (main : Bool) (p : Program)
    (h1 : P.parses src = false)
    (h0 : P.parses (if main then src else wrapShell src) = false)
    (ht : P.transform src filename opts.sourceMapLoader.isSome none = ⟨t, tm, none⟩)
    (h3 : P.parses (if main then t else wrapShell t) = true)
    (hclean : opts.sourceMapLoader = none
      ∨ P.mapRef (if main then t else wrapShell t) = none)
    (hca : P.compileAST (if main then t else wrapShell t) opts.strict = .ok p) :
    compileImpl P opts src filename main .extended none =
      ⟨some p, if main then t else wrapShell t, none, [src], 0⟩
    ∧ (if main then t else wrapShell t) ≠ src
    ∧ compileImpl P opts src filename main .base none =
      ⟨none, if main then src else wrapShell src, some (.syntaxError filename), [], 0⟩ := by
  have ha := parseAttempt_syntax_fail P opts src filename main none h0
  have hb := parseAttempt_clean P opts t filename main tm h3 hclean
  refine ⟨?_, ?_, ?_⟩
  · unfold compileImpl
    dsimp only
    rw [ha]
    dsimp only
    rw [ht]
    dsimp only
    unfold compileImplBase
    dsimp only
    rw [hb]
    dsimp only
    unfold compileASTStep
    rw [hca]
    rfl
  · intro heq
    rw [heq, h1] at h3
    exact Bool.false_ne_true h3
  · unfold compileImpl
    dsimp only
    rw [ha]

/-- C2 witness: a concrete engine that only parses the text `legacy`, with a
transform rewriting everything to `legacy`: compiling `modern` in Extended mode
succeeds with changed text after one transform; Base mode fails. -/
theorem C2_witness :
    (⟨fun c => c == "legacy", fun _ => none, fun a s => .ok ⟨a, s⟩,
        fun _ _ _ _ => ⟨"legacy", none, none⟩⟩ : EngineCaps).parses "modern" = false
    ∧ compileImpl
        ⟨fun c => c == "legacy", fun _ => none, fun a s => .ok ⟨a, s⟩,
         fun _ _ _ _ => ⟨"legacy", none, none⟩⟩
        ⟨.extended, none, false⟩ "modern" "f.js" true .extended none
      = ⟨some ⟨"legacy", false⟩, "legacy", none, ["modern"], 0⟩
    ∧ compileImpl
        ⟨fun c => c == "legacy", fun _ => none, fun a s => .ok ⟨a, s⟩,
         fun _ _ _ _ => ⟨"legacy", none, none⟩⟩
        ⟨.extended, none, false⟩ "modern" "f.js" true .base none
      = ⟨none, "modern", some (.syntaxError "f.js"), [], 0⟩ := by
  have h := C2_modern_syntax_fallback
    ⟨fun c => c == "legacy", fun _ => none, fun a s => .ok ⟨a, s⟩,
     fun _ _ _ _ => ⟨"legacy", none, none⟩⟩
    ⟨.extended, none, false⟩ "modern" "f.js" "legacy" none true ⟨"legacy", false⟩
    rfl rfl rfl rfl (Or.inl rfl) rfl
  exact ⟨rfl, h.1, h.2.2⟩

/-- C3: an entry-module source that parses natively compiles successfully with
the final source text equal to the original input — no wrapping, no transform —
in either compatibility mode (assuming the host AST-compile step succeeds). -/
theorem C3_entry_module_unchanged (P : EngineCaps) (opts : Options) (src filename : String)
    (mode : CompatibilityMode) (p : Program)
    (hp : P.parses src = true) (hca : P.compileAST src opts.strict = .ok p) :
    (compileImpl P opts src filename true mode none).pgm = some p
    ∧ (compileImpl P opts src filename true mode none).code = src
    ∧ (compileImpl P opts src filename true mode none).err = none
    ∧ (compileImpl P opts src filename true mode none).transformCalls = [] := by
  have hres := parseAttempt_main_ok P opts src filename none hp
  have hcode : (parseAttempt P opts src filename true none).code = src :=
    (parseAttempt_code P opts src filename true none).trans rfl
  unfold compileImpl
  dsimp only
  rw [hres, hcode]
  dsimp only
  unfold compileASTStep
  rw [hca]
  exact ⟨rfl, rfl, rfl, rfl⟩

/-- C3 witness: with an engine that parses everything, compiling an entry module
returns the text unchanged and performs no transform. -/
theorem C3_witness :
    (⟨fun _ => true, fun _ => none, fun a s => .ok ⟨a, s⟩,
        fun _ _ _ _ => ⟨"legacy", none, none⟩⟩ : EngineCaps).parses "var a = 1" = true
    ∧ (compileImpl
        ⟨fun _ => true, fun _ => none, fun a s => .ok ⟨a, s⟩,
         fun _ _ _ _ => ⟨"legacy", none, none⟩⟩
        ⟨.extended, none, false⟩ "var a = 1" "script.js" true .extended none).code = "var a = 1"
    ∧ (compileImpl
        ⟨fun _ => true, fun _ => none, fun a s => .ok ⟨a, s⟩,
         fun _ _ _ _ => ⟨"legacy", none, none⟩⟩
        ⟨.extended, none, false⟩ "var a = 1" "script.js" true .extended none).transformCalls
      = [] := by
  have h := C3_entry_module_unchanged
    ⟨fun _ => true, fun _ => none, fun a s => .ok ⟨a, s⟩,
     fun _ _ _ _ => ⟨"legacy", none, none⟩⟩
    ⟨.extended, none, false⟩ "var a = 1" "script.js" .extended ⟨"var a = 1", false⟩ rfl rfl
  exact ⟨rfl, h.2.1, h.2.2.2⟩

/-- C4: a successful non-entry-module compile returns exactly the original — or,
after fallback, the transformed — source wrapped once in the synthetic function
shell, and the shell adds exactly one leading line (a newline-free header line)
before the source. -/
theorem C4_non_entry_wrapped_once (P : EngineCaps) (opts : Options) (src filename : String)
    (mode : CompatibilityMode) (srcMap : Option Bytes)
    (h : (compileImpl P opts src filename false mode srcMap).err = none) :
    ((compileImpl P opts src filename false mode srcMap).code = wrapShell src
      ∨ ∃ m : Option Bytes,
          (P.transform src filename opts.sourceMapLoader.isSome m).err = none
          ∧ (compileImpl P opts src filename false mode srcMap).code
              = wrapShell (P.transform src filename opts.sourceMapLoader.isSome m).code)
    ∧ ∀ s : String, ∃ header : String,
        wrapShell s = header ++ "\n" ++ s ++ "\n\x7d)\n"
        ∧ header.data.count '\n' = 0 := by
  constructor
  · have hcode : (parseAttempt P opts src filename false srcMap).code = wrapShell src :=
      (parseAttempt_code P opts src filename false srcMap).trans rfl
    unfold compileImpl at h ⊢
    dsimp only at h ⊢
    cases hres : (parseAttempt P opts src filename false srcMap).result with
    | ok ast =>
      dsimp only
      exact Or.inl ((compileASTStep_code ..).trans hcode)
    | error e =>
      rw [hres] at h
      dsimp only at h ⊢
      cases mode with
      | base => simp at h
      | extended =>
        cases hterr : (P.transform src filename opts.sourceMapLoader.isSome
            (parseAttempt P opts src filename false srcMap).state.srcMap).err with
        | some te =>
          rw [hterr] at h
          simp at h
        | none =>
          rw [hterr] at h
          dsimp only at h ⊢
          refine Or.inr ⟨(parseAttempt P opts src filename false srcMap).state.srcMap,
            hterr, ?_⟩
          exact (compileImplBase_code ..).trans rfl
  · intro s
    refine ⟨"(function(module, exports)\x7b", ?_, by decide⟩
    show wrapShell s = _
    unfold wrapShell
    rw [show ("(function(module, exports)\x7b\n" : String)
          = "(function(module, exports)\x7b" ++ "\n" from rfl]

/-- C4 witness: a concrete successful non-entry compile whose returned text is
the wrapped original source. -/
theorem C4_witness :
    (compileImpl ⟨fun _ => true, fun _ => none, fun a s => .ok ⟨a, s⟩,
        fun _ _ _ _ => ⟨"legacy", none, none⟩⟩
      ⟨.base, none, false⟩ "x" "f.js" false .base none).err = none
    ∧ ((compileImpl ⟨fun _ => true, fun _ => none, fun a s => .ok ⟨a, s⟩,
          fun _ _ _ _ => ⟨"legacy", none, none⟩⟩
        ⟨.base, none, false⟩ "x" "f.js" false .base none).code = wrapShell "x"
      ∨ ∃ m : Option Bytes,
          ((⟨fun _ => true, fun _ => none, fun a s => .ok ⟨a, s⟩,
              fun _ _ _ _ => ⟨"legacy", none, none⟩⟩ : EngineCaps).transform "x" "f.js"
            (⟨.base, none, false⟩ : Options).sourceMapLoader.isSome m).err = none
          ∧ (compileImpl ⟨fun _ => true, fun _ => none, fun a s => .ok ⟨a, s⟩,
                fun _ _ _ _ => ⟨"legacy", none, none⟩⟩
              ⟨.base, none, false⟩ "x" "f.js" false .base none).code
            = wrapShell ((⟨fun _ => true, fun _ => none, fun a s => .ok ⟨a, s⟩,
                fun _ _ _ _ => ⟨"legacy", none, none⟩⟩ : EngineCaps).transform "x" "f.js"
                (⟨.base, none, false⟩ : Options).sourceMapLoader.isSome m).code) :=
  ⟨rfl, (C4_non_entry_wrapped_once
    ⟨fun _ => true, fun _ => none, fun a s => .ok ⟨a, s⟩,
     fun _ _ _ _ => ⟨"legacy", none, none⟩⟩
    ⟨.base, none, false⟩ "x" "f.js" .base none rfl).1⟩

/-- C5: on a decoded map whose `mappings` value is a string of `N`
semicolon-separated line-groups, the repair succeeds, producing a map whose
`mappings` string has `N + 1` groups — an empty first group followed by the
original groups in order; a decoded map with no `mappings` key is returned
unchanged. -/
theorem C5_map_shift (st : compilationState) (b : Bytes) (m : List (String × JVal)) (s : String)
    (hdec : unmarshalBytes b = some m) :
    (jlookup "mappings" m = some (.jstr s) →
      increaseMappingsByOne st (some b) =
        (st, .ok (.jval (.jobj (jupdate "mappings" (.jstr (";" ++ s)) m))))
      ∧ jlookup "mappings" (jupdate "mappings" (.jstr (";" ++ s)) m)
          = some (.jstr (";" ++ s))
      ∧ semiGroups (";" ++ s) = [] :: semiGroups s
      ∧ (semiGroups (";" ++ s)).length = (semiGroups s).length + 1)
    ∧ (jlookup "mappings" m = none →
        increaseMappingsByOne st (some b) = (st, .ok b)) := by
  constructor
  · intro hmap
    refine ⟨?_, jlookup_jupdate_self .., semiGroups_semi_prepend s, ?_⟩
    · unfold increaseMappingsByOne
      dsimp only
      rw [hdec]
      dsimp only
      rw [hmap]
    · rw [semiGroups_semi_prepend]
      rfl
  · intro hmap
    unfold increaseMappingsByOne
    dsimp only
    rw [hdec]
    dsimp only
    rw [hmap]

/-- C5 witness: repairing a concrete two-group map prepends an empty group. -/
theorem C5_witness :
    jlookup "mappings" [("version", JVal.jnum 3), ("mappings", JVal.jstr "AA;BB")]
      = some (.jstr "AA;BB")
    ∧ increaseMappingsByOne ⟨false, none, true⟩
        (some (.jval (.jobj [("version", JVal.jnum 3), ("mappings", JVal.jstr "AA;BB")])))
      = (⟨false, none, true⟩, .ok (.jval (.jobj
          [("version", JVal.jnum 3), ("mappings", JVal.jstr ";AA;BB")])))
    ∧ semiGroups ";AA;BB" = [] :: semiGroups "AA;BB" :=
  ⟨rfl,
   ((C5_map_shift ⟨false, none, true⟩
      (.jval (.jobj [("version", JVal.jnum 3), ("mappings", JVal.jstr "AA;BB")]))
      [("version", JVal.jnum 3), ("mappings", JVal.jstr "AA;BB")] "AA;BB" rfl).1 rfl).1,
   ((C5_map_shift ⟨false, none, true⟩
      (.jval (.jobj [("version", JVal.jnum 3), ("mappings", JVal.jstr "AA;BB")]))
      [("version", JVal.jnum 3), ("mappings", JVal.jstr "AA;BB")] "AA;BB" rfl).1 rfl).2.2.1⟩

/-- C6: when a compilable source references an external source map and the
injected loader fails, the compile still succeeds (one warned retry with maps
disabled) and the loader's error is never returned to the caller, in either
compatibility mode, entry module or not. -/
theorem C6_loader_failure_never_fatal (P : EngineCaps) (opts : Options)
    (src filename path : String) (main : Bool) (mode : CompatibilityMode)
    (load : SMLoader) (e : String) (p : Program)
    (hp : P.parses (if main then src else wrapShell src) = true)
    (hl : opts.sourceMapLoader = some load)
    (hr : P.mapRef (if main then src else wrapShell src) = some path)
    (hsent : path ≠ sourceMapURLFromBabel)
    (he : (load path).2 = some e)
    (hca : P.compileAST (if main then src else wrapShell src) opts.strict = .ok p) :
    compileImpl P opts src filename main mode none =
      ⟨some p, if main then src else wrapShell src, none, [], 1⟩ := by
  have ha := parseAttempt_loader_fail P opts src filename path main none load e hp hl hr hsent he
  unfold compileImpl
  dsimp only
  rw [ha]
  dsimp only
  unfold compileASTStep
  rw [hca]

/-- C6 witness: an always-failing loader on a map-referencing entry module still
yields a successful compile with no error and one warning. -/
theorem C6_witness :
    ((fun _ : String => ((none : Option Bytes), some "open failed")) "ext.map").2
      = some "open failed"
    ∧ compileImpl ⟨fun _ => true, fun _ => some "ext.map", fun a s => .ok ⟨a, s⟩,
        fun _ _ _ _ => ⟨"legacy", none, none⟩⟩
        ⟨.base, some (fun _ => (none, some "open failed")), true⟩ "s" "f.js" true .base none
      = ⟨some ⟨"s", true⟩, "s", none, [], 1⟩ :=
  ⟨rfl,
   C6_loader_failure_never_fatal
     ⟨fun _ => true, fun _ => some "ext.map", fun a s => .ok ⟨a, s⟩,
      fun _ _ _ _ => ⟨"legacy", none, none⟩⟩
     ⟨.base, some (fun _ => (none, some "open failed")), true⟩
     "s" "f.js" "ext.map" true .base (fun _ => (none, some "open failed"))
     "open failed" ⟨"s", true⟩ rfl rfl rfl (by decide) rfl rfl⟩

/-- A decoded map whose `mappings` value is present but not a string: the repair
sets the load-failure flag and fails with the map error. -/
theorem increaseMappingsByOne_nonstring (st : compilationState) (b : Bytes)
    (m : List (String × JVal)) (v : JVal)
    (hdec : unmarshalBytes b = some m)
    (hmap : jlookup "mappings" m = some v) (hv : v.isStr = false) :
    increaseMappingsByOne st (some b)
      = ({ st with couldntLoadSourceMap := true },
         .error "missing mappings in sourcemap") := by
  unfold increaseMappingsByOne
  dsimp only
  rw [hdec]
  dsimp only
  rw [hmap]
  cases v with
  | jstr s => exact Bool.noConfusion hv
  | jnull => rfl
  | jbool bb => rfl
  | jnum n => rfl
  | jarr a => rfl
  | jobj o => rfl

/-- C7 counterexample: a loaded source map whose bytes are not valid JSON is not
handled like a map-load failure — `increaseMappingsByOne` returns the decode
error without setting `couldntLoadSourceMap`, so no disabled-maps retry happens
and the Base-mode compile fails: the map-decode error is fatal to the call. -/
theorem C7_counterexample :
    (increaseMappingsByOne ⟨false, none, false⟩
        (some (Bytes.undecodable "not json"))).1.couldntLoadSourceMap = false
    ∧ compileImpl
        ⟨fun _ => true, fun _ => some "dep.js.map", fun a s => .ok ⟨a, s⟩,
         fun _ _ _ _ => ⟨"legacy", none, none⟩⟩
        ⟨.base, some (fun _ => (some (Bytes.undecodable "not json"), none)), false⟩
        "a" "f.js" false .base none
      = ⟨none, wrapShell "a", some (.sourceMapError "could not unmarshal sourcemap"), [], 0⟩ :=
  ⟨rfl, rfl⟩

/-- C7 (amended): only a `mappings` value that is present but not a string is
handled like a map-load failure — the flag is set and the compile recovers by a
warned retry with maps disabled, so that decode failure is never fatal; bytes
that fail JSON decoding propagate their error without setting the flag (see the
counterexample). -/
theorem C7_nonstring_mappings_recovers (P : EngineCaps) (opts : Options)
    (src filename path : String) (load : SMLoader) (b : Bytes)
    (m : List (String × JVal)) (v : JVal) (p : Program) (mode : CompatibilityMode)
    (st : compilationState)
    (hp : P.parses (wrapShell src) = true)
    (hl : opts.sourceMapLoader = some load)
    (hr : P.mapRef (wrapShell src) = some path)
    (hsent : path ≠ sourceMapURLFromBabel)
    (hload : load path = (some b, none))
    (hdec : unmarshalBytes b = some m)
    (hmap : jlookup "mappings" m = some v)
    (hv : v.isStr = false)
    (hca : P.compileAST (wrapShell src) opts.strict = .ok p) :
    (increaseMappingsByOne st (some b)).1.couldntLoadSourceMap = true
    ∧ compileImpl P opts src filename false mode none =
        ⟨some p, wrapShell src, none, [], 1⟩ := by
  constructor
  · rw [increaseMappingsByOne_nonstring st b m v hdec hmap hv]
  · have hpf : parseFile P filename (wrapShell src) (some load) ⟨false, none, false⟩
        = (⟨true, some b, false⟩,
           .error (.sourceMapError "missing mappings in sourcemap")) := by
      unfold parseFile
      rw [if_pos hp]
      dsimp only
      rw [hr]
      dsimp only
      unfold sourceMapLoader
      rw [if_neg hsent]
      dsimp only
      rw [hload]
      dsimp only
      rw [increaseMappingsByOne_nonstring ⟨false, some b, false⟩ b m v hdec hmap hv]
      rfl
    have ha : parseAttempt P opts src filename false none
        = ⟨wrapShell src, ⟨false, some b, false⟩, .ok (wrapShell src), 1⟩ := by
      unfold parseAttempt
      dsimp only
      rw [show (if false = true then src else wrapShell src) = wrapShell src from rfl]
      rw [hl, hpf]
      dsimp only
      rw [parseFile_disabled P filename _ _ hp]
      rfl
    unfold compileImpl
    dsimp only
    rw [ha]
    dsimp only
    unfold compileASTStep
    rw [hca]

/-- C7 witness (for the amended claim): a loaded map decoding to an object whose
`mappings` is a number sets the flag, and the compile recovers to success with
one warning. -/
theorem C7_witness :
    jlookup "mappings" [("mappings", JVal.jnum 0)] = some (.jnum 0)
    ∧ (increaseMappingsByOne ⟨false, none, false⟩
        (some (.jval (.jobj [("mappings", JVal.jnum 0)])))).1.couldntLoadSourceMap = true
    ∧ compileImpl
        ⟨fun _ => true, fun _ => some "dep.map", fun a s => .ok ⟨a, s⟩,
         fun _ _ _ _ => ⟨"legacy", none, none⟩⟩
        ⟨.base, some (fun _ => (some (.jval (.jobj [("mappings", JVal.jnum 0)])), none)),
         false⟩ "a" "f.js" false .base none
      = ⟨some ⟨wrapShell "a", false⟩, wrapShell "a", none, [], 1⟩ := by
  have h := C7_nonstring_mappings_recovers
    ⟨fun _ => true, fun _ => some "dep.map", fun a s => .ok ⟨a, s⟩,
     fun _ _ _ _ => ⟨"legacy", none, none⟩⟩
    ⟨.base, some (fun _ => (some (.jval (.jobj [("mappings", JVal.jnum 0)])), none)), false⟩
    "a" "f.js" "dep.map" (fun _ => (some (.jval (.jobj [("mappings", JVal.jnum 0)])), none))
    (.jval (.jobj [("mappings", JVal.jnum 0)])) [("mappings", JVal.jnum 0)] (.jnum 0)
    ⟨wrapShell "a", false⟩ .base ⟨false, none, false⟩
    rfl rfl rfl (by decide) rfl rfl rfl rfl rfl
  exact ⟨rfl, h.1, h.2⟩

/-- C9: in a non-entry-module compilation, the source-map loader callback applies
the one-line shift both on the internal sentinel path (to the in-memory map) and
to maps successfully returned by the external loading capability. -/
theorem C9_loader_shifts_nonentry (load : SMLoader) (st : compilationState)
    (hmain : st.main = false) :
    sourceMapLoader load st sourceMapURLFromBabel
      = liftMapped (increaseMappingsByOne st st.srcMap)
    ∧ ∀ path b, path ≠ sourceMapURLFromBabel → load path = (some b, none) →
        sourceMapLoader load st path
          = liftMapped (increaseMappingsByOne { st with srcMap := some b } (some b)) := by
  constructor
  · unfold sourceMapLoader
    rw [if_pos rfl, hmain]
    rfl
  · intro path b hpath hload
    unfold sourceMapLoader
    rw [if_neg hpath]
    dsimp only
    rw [hload]
    dsimp only
    rw [hmain]
    rfl

/-- C9 witness: both the sentinel path and an external load on a non-entry state
run the shift. -/
theorem C9_witness :
    sourceMapLoader (fun _ => (some (.jval (.jobj [("mappings", JVal.jstr "AA")])), none))
        ⟨false, some (.jval (.jobj [("mappings", JVal.jstr "CC")])), false⟩
        sourceMapURLFromBabel
      = liftMapped (increaseMappingsByOne
          ⟨false, some (.jval (.jobj [("mappings", JVal.jstr "CC")])), false⟩
          (some (.jval (.jobj [("mappings", JVal.jstr "CC")]))))
    ∧ sourceMapLoader (fun _ => (some (.jval (.jobj [("mappings", JVal.jstr "AA")])), none))
        ⟨false, some (.jval (.jobj [("mappings", JVal.jstr "CC")])), false⟩ "ext.map"
      = liftMapped (increaseMappingsByOne
          ⟨false, some (.jval (.jobj [("mappings", JVal.jstr "AA")])), false⟩
          (some (.jval (.jobj [("mappings", JVal.jstr "AA")])))) := by
  have h := C9_loader_shifts_nonentry
    (fun _ => (some (.jval (.jobj [("mappings", JVal.jstr "AA")])), none))
    ⟨false, some (.jval (.jobj [("mappings", JVal.jstr "CC")])), false⟩ rfl
  exact ⟨h.1, h.2 "ext.map" _ (by decide) rfl⟩

/-- C10: a successful run of the repair function modifies only the `mappings`
field — every other top-level key of the decoded input map is present in the
decoded output with an equal value. -/
theorem C10_only_mappings_modified (st st' : compilationState) (b b' : Bytes)
    (m : List (String × JVal)) (k : String)
    (hk : k ≠ "mappings") (hdec : unmarshalBytes b = some m)
    (hok : increaseMappingsByOne st (some b) = (st', .ok b')) :
    ∃ m', unmarshalBytes b' = some m' ∧ jlookup k m' = jlookup k m := by
  unfold increaseMappingsByOne at hok
  dsimp only at hok
  rw [hdec] at hok
  dsimp only at hok
  cases hl : jlookup "mappings" m with
  | none =>
    rw [hl] at hok
    dsimp only at hok
    injection hok with h1 h2
    injection h2 with hb
    exact ⟨m, hb ▸ hdec, rfl⟩
  | some v =>
    rw [hl] at hok
    cases v with
    | jstr s =>
      dsimp only at hok
      injection hok with h1 h2
      injection h2 with hb
      refine ⟨jupdate "mappings" (.jstr (";" ++ s)) m, ?_, ?_⟩
      · rw [← hb]
        rfl
      · exact jlookup_jupdate_ne "mappings" k (.jstr (";" ++ s)) m hk
    | jnull =>
      dsimp only at hok
      injection hok with h1 h2
      exact Except.noConfusion h2
    | jbool bb =>
      dsimp only at hok
      injection hok with h1 h2
      exact Except.noConfusion h2
    | jnum n =>
      dsimp only at hok
      injection hok with h1 h2
      exact Except.noConfusion h2
    | jarr a =>
      dsimp only at hok
      injection hok with h1 h2
      exact Except.noConfusion h2
    | jobj o =>
      dsimp only at hok
      injection hok with h1 h2
      exact Except.noConfusion h2

/-- C10 witness: repairing a concrete map leaves the `version` key unchanged. -/
theorem C10_witness :
    ∃ m', unmarshalBytes (.jval (.jobj
        [("version", JVal.jnum 3), ("mappings", JVal.jstr ";AA")])) = some m'
      ∧ jlookup "version" m'
          = jlookup "version" [("version", JVal.jnum 3), ("mappings", JVal.jstr "AA")] :=
  C10_only_mappings_modified ⟨false, none, false⟩ ⟨false, none, false⟩
    (.jval (.jobj [("version", JVal.jnum 3), ("mappings", JVal.jstr "AA")]))
    (.jval (.jobj [("version", JVal.jnum 3), ("mappings", JVal.jstr ";AA")]))
    [("version", JVal.jnum 3), ("mappings", JVal.jstr "AA")] "version"
    (by decide) rfl rfl

/-- C8: across any number of `newBabel` calls in one process, the shared Babel
bytecode build runs at most once (exactly once as soon as there is at least one
call), and every call observes the same single build result — the memoized
program value or error. -/
theorem C8_babel_bytecode_built_once (build : Except String BabelProgram) (n : Nat) :
    (runNewBabels build n).1.babelBuildCount = min n 1
    ∧ (runNewBabels build n).2 = List.replicate n build := by
  rw [runNewBabels_eq]
  refine ⟨?_, rfl⟩
  rcases Nat.eq_zero_or_pos n with hn | hn
  · subst hn
    rfl
  · have hne : n ≠ 0 := Nat.pos_iff_ne_zero.mp hn
    simp [if_neg hne, Nat.min_eq_right hn, initialBabelGlobals]

end K6
